import Mathlib

/-!
Verification development for the `aversion` crate: wire header codecs
(`src/aversion/src/util/header.rs`), the CBOR data source/sink
(`src/aversion/src/util/cbor.rs`), the version upgrade machinery
(`src/aversion/src/versioned.rs`, `src/aversion-macros/src/lib.rs`) and the
message-group dispatcher (`src/aversion/src/group.rs`).

Bytes are modelled as `Nat` (each in `[0, 255]` wherever produced by the
encoders).  A `Read` stream is a `List Nat`; reading consumes a prefix.
A `Write` sink is a `ByteWriter`: a written buffer plus an optional
capacity, modelling both the fixed-size `&mut [u8]` cursor (capacity
`some n`, where `write_all` fails with `WriteZero` once the slice is
exhausted) and growable `Vec`/stream sinks (capacity `none`).  A Rust
`unwrap`/`expect` of an error is modelled as `Option.none` (the function
diverges by panicking instead of returning).
-/

namespace Aversion

/-! ### byteorder primitives (big-endian), read side -/

/-- Read one byte from a stream; `none` models `io::ErrorKind::UnexpectedEof`. -/
def readU8 : List Nat → Option (Nat × List Nat)
  | [] => none
  | b :: rest => some (b, rest)

/-- `ReadBytesExt::read_u16::<BigEndian>`: two bytes, most significant first. -/
def readU16 (s : List Nat) : Option (Nat × List Nat) := do
  let (b0, s) ← readU8 s
  let (b1, s) ← readU8 s
  some (b0 * 256 + b1, s)

/-- `ReadBytesExt::read_u32::<BigEndian>`: four bytes, most significant first. -/
def readU32 (s : List Nat) : Option (Nat × List Nat) := do
  let (b0, s) ← readU8 s
  let (b1, s) ← readU8 s
  let (b2, s) ← readU8 s
  let (b3, s) ← readU8 s
  some (((b0 * 256 + b1) * 256 + b2) * 256 + b3, s)

/-! ### byteorder primitives, write side -/

/-- The two big-endian bytes emitted by `WriteBytesExt::write_u16::<BigEndian>`. -/
def u16Bytes (x : Nat) : List Nat := [x / 256 % 256, x % 256]

/-- The four big-endian bytes emitted by `WriteBytesExt::write_u32::<BigEndian>`. -/
def u32Bytes (x : Nat) : List Nat :=
  [x / 16777216 % 256, x / 65536 % 256, x / 256 % 256, x % 256]

/-- A `std::io::Write` sink: the bytes written so far plus an optional
capacity.  `some cap` models the `Write` impl for `&mut [u8]` backed by a
`cap`-byte array; `none` models a growable sink (`Vec<u8>`, `Cursor<Vec<u8>>`,
a file or socket that accepts all bytes). -/
structure ByteWriter where
  written : List Nat
  capacity : Option Nat
deriving DecidableEq

/-- `Write::write_all`: appends all of `data`, or fails (`WriteZero`) when a
fixed-capacity sink cannot hold the whole buffer. -/
def ByteWriter.writeAll (w : ByteWriter) (data : List Nat) : Option ByteWriter :=
  match w.capacity with
  | none => some ⟨w.written ++ data, none⟩
  | some cap =>
    if w.written.length + data.length ≤ cap then some ⟨w.written ++ data, some cap⟩
    else none

/-! ### TinyHeader (`src/aversion/src/util/header.rs`, lines 10-63) -/

/-- `TinyHeader { msg_id: u16, msg_ver: u16 }`. -/
structure TinyHeader where
  msg_id : Nat
  msg_ver : Nat
deriving DecidableEq

/-- `TinyHeader::deserialize_from`: read `msg_id` then `msg_ver`
(big-endian `u16`s) from a `Read` stream. -/
def TinyHeader.deserialize_from (s : List Nat) : Option (TinyHeader × List Nat) := do
  let (msg_id, s) ← readU16 s
  let (msg_ver, s) ← readU16 s
  some (⟨msg_id, msg_ver⟩, s)

/-- `TinyHeader::deserialize`: run `deserialize_from` on a 4-byte buffer and
`unwrap` (`none` = the unwrap panicked). -/
def TinyHeader.deserialize (buf : List Nat) : Option TinyHeader :=
  (TinyHeader.deserialize_from buf).map Prod.fst

/-- `TinyHeader::serialize_into`: `write_u16(msg_id)` then `write_u16(msg_ver)`. -/
def TinyHeader.serialize_into (h : TinyHeader) (w : ByteWriter) : Option ByteWriter := do
  let w ← w.writeAll (u16Bytes h.msg_id)
  w.writeAll (u16Bytes h.msg_ver)

/-- `TinyHeader::serialize`: serialize into a `[0u8; 4]` cursor and `unwrap`
(`none` = the unwrap panicked). -/
def TinyHeader.serialize (h : TinyHeader) : Option (List Nat) :=
  (h.serialize_into ⟨[], some 4⟩).map ByteWriter.written

/-! ### BasicHeader (`src/aversion/src/util/header.rs`, lines 82-147) -/

/-- `BasicHeader { msg_id: u16, msg_ver: u16, msg_len: u32 }`. -/
structure BasicHeader where
  msg_id : Nat
  msg_ver : Nat
  msg_len : Nat
deriving DecidableEq

/-- `BasicHeader::deserialize_from`: read `msg_id`, `msg_ver` (`u16`) and
`msg_len` (`u32`), all big-endian, from a `Read` stream. -/
def BasicHeader.deserialize_from (s : List Nat) : Option (BasicHeader × List Nat) := do
  let (msg_id, s) ← readU16 s
  let (msg_ver, s) ← readU16 s
  let (msg_len, s) ← readU32 s
  some (⟨msg_id, msg_ver, msg_len⟩, s)

/-- `BasicHeader::deserialize`: run `deserialize_from` on the 4-byte buffer
demanded by its `impl AsRef<[u8; 4]>` signature and `unwrap`
(`none` = the unwrap panicked). -/
def BasicHeader.deserialize (buf : List Nat) : Option BasicHeader :=
  (BasicHeader.deserialize_from buf).map Prod.fst

/-- `BasicHeader::serialize_into`: `write_u16(msg_id)`, `write_u16(msg_ver)`,
`write_u32(msg_len)`. -/
def BasicHeader.serialize_into (h : BasicHeader) (w : ByteWriter) : Option ByteWriter := do
  let w ← w.writeAll (u16Bytes h.msg_id)
  let w ← w.writeAll (u16Bytes h.msg_ver)
  w.writeAll (u32Bytes h.msg_len)

/-- `BasicHeader::serialize`: serialize into a `[0u8; 4]` cursor — the buffer
in the source is `[0u8; 4]` even though the header is 8 bytes — and `unwrap`
(`none` = the unwrap panicked). -/
def BasicHeader.serialize (h : BasicHeader) : Option (List Nat) :=
  (h.serialize_into ⟨[], some 4⟩).map ByteWriter.written

/-! ### Upgrade chains (`src/aversion-macros/src/lib.rs`)

The carrier of every schema version of one family is modelled by a single
type `α`; `step v` is the user-supplied adjacent conversion
`impl FromVersion<FooV v> for FooV (v+1)`.  `FromVersion<FooV v>` for the
latest version `FooV hi` is then: the reflexive blanket impl when `v = hi`
(`src/aversion/src/versioned.rs`, lines 45-52), the user's adjacent step when
`v + 1 = hi`, and the macro-generated long hop otherwise
(`quote_from_version_hop`). -/

/-- The long-hop conversion `quote_from_version_hop` generates for
`impl FromVersion<FooV lo> for FooV hi`: the straight-line statement list
`let v(ii+1) = FooV(ii+1)::from_version(v ii)` for `ii` in `lo..hi`, front to
back, returning `v hi` — i.e. a left fold of the adjacent steps over
`[lo, lo+1, ..., hi-1]`.  For `hi = lo` (reflexive impl) and `hi = lo + 1`
(the user's own step) the same fold also describes the conversion used by
`upgrade_latest`, so it models `FromVersion` at every version of the family. -/
def fromVersionHop (step : Nat → α → α) (lo hi : Nat) (x : α) : α :=
  (List.range' lo (hi - lo)).foldl (fun v ii => step ii v) x

/-- Modelled from the spec sentence for the observable contract:
"sequentially applying every adjacent step from_version
lo → lo+1 → ... → N".  `specStepwiseChain step lo n` applies
`step lo`, then `step (lo+1)`, ..., then `step (lo+n-1)`, one call at a
time, materializing every intermediate version. -/
def specStepwiseChain (step : Nat → α → α) (lo : Nat) : Nat → α → α
  | 0, x => x
  | n + 1, x => step (lo + n) (specStepwiseChain step lo n x)

/-! ### DataSource model (`src/aversion/src/group.rs`) -/

/-- A value implementing `GroupHeader` (`msg_id`, `msg_ver` accessors). -/
structure GHeader where
  msgId : Nat
  msgVer : Nat
deriving DecidableEq

/-- Observable actions `upgrade_latest` / `read_message` / `expect_message`
perform on a `DataSource`: reading the header, or reading one payload
deserialized as the version-`ver` struct. -/
inductive SrcEvent
  | readHeader
  | readPayload (ver : Nat)
deriving DecidableEq, BEq

/-- A pure model of a `DataSource` implementation: the outcome of
`read_header`, the outcome of `read_message::<FooV ver>` for each version
`ver`, and the three user-overridable error hooks.  The error type `ε` and
payload carrier `α` are user-defined. -/
structure DataSource (α ε : Type) where
  readHeaderResult : Except ε GHeader
  readMessageResult : Nat → Except ε α
  unknownMessage : Nat → ε
  unknownVersion : Nat → ε
  unexpectedMessage : Nat → ε

/-- One message family: its latest version number and its adjacent
conversion steps. -/
structure Family (α : Type) where
  latest : Nat
  step : Nat → α → α

/-- The `upgrade_latest` body generated by `derive_upgrade_latest`
(`src/aversion-macros/src/lib.rs`, lines 148-157): a `match ver` with one
arm per version in `1..=latest` — each arm reads one payload as that
version's struct and converts it to the latest via `FromVersion` — and a
default arm returning `src.unknown_version::<Base>(ver)` without touching
the payload.  Returns the result paired with the trace of source actions. -/
def upgradeLatest (F : Family α) (src : DataSource α ε) (ver : Nat) :
    Except ε α × List SrcEvent :=
  if 1 ≤ ver ∧ ver ≤ F.latest then
    match src.readMessageResult ver with
    | .ok msg => (.ok (fromVersionHop F.step ver F.latest msg), [.readPayload ver])
    | .error e => (.error e, [.readPayload ver])
  else
    (.error (src.unknownVersion ver), [])

/-- `GroupDeserialize::expect_message` (`src/aversion/src/group.rs`, lines
123-135): read one header; if its id equals `T::MSG_ID` delegate to
`T::upgrade_latest` with the header's version, otherwise return
`src.unexpected_message::<T>(header.msg_id())`. -/
def expectMessage (msgId : Nat) (F : Family α) (src : DataSource α ε) :
    Except ε α × List SrcEvent :=
  match src.readHeaderResult with
  | .error e => (.error e, [.readHeader])
  | .ok h =>
    if h.msgId = msgId then
      let r := upgradeLatest F src h.msgVer
      (r.1, .readHeader :: r.2)
    else
      (.error (src.unexpectedMessage h.msgId), [.readHeader])

/-- The `read_message` body generated by `derive_group_deserialize`
(`src/aversion-macros/src/lib.rs`, lines 274-285): read one header, then
`match header.msg_id()` against each variant's `MSG_ID` in declaration
order; a matching arm calls that family's `upgrade_latest` and wraps the
value in the enum variant (modelled as the pair of the variant's id and the
value); the default arm returns `src.unknown_message(header.msg_id())`. -/
def groupReadMessage (group : List (Nat × Family α)) (src : DataSource α ε) :
    Except ε (Nat × α) × List SrcEvent :=
  match src.readHeaderResult with
  | .error e => (.error e, [.readHeader])
  | .ok h =>
    match group.find? (fun p => p.1 == h.msgId) with
    | some (id, F) =>
      let r := upgradeLatest F src h.msgVer
      (Except.map (fun v => (id, v)) r.1, .readHeader :: r.2)
    | none => (.error (src.unknownMessage h.msgId), [.readHeader])

/-! ### CborData (`src/aversion/src/util/cbor.rs`) -/

/-- `CborData::read_message` (lines 83-94): wrap the inner reader in
`reader.take(header.msg_len)` and run `serde_cbor::from_reader` on that
subreader.  The CBOR decoder is abstract: `dec window` returns its result
and how many bytes of the window it consumed; the `Take` wrapper hands it at
most `msg_len` bytes, so the bytes consumed from the underlying stream are
`min` of the decoder's consumption and the window length.  Returns the
result and the remaining underlying stream. -/
def CborData.read_message (dec : List Nat → Except ε α × Nat)
    (header : BasicHeader) (stream : List Nat) : Except ε α × List Nat :=
  let subreader := stream.take header.msg_len
  let r := dec subreader
  (r.1, stream.drop (min r.2 subreader.length))

/-- `CborData::write_message` (lines 102-118): serialize the message into a
fresh `Cursor<Vec<u8>>` with `serde_cbor::to_writer` (the CBOR encoder is
the abstract total function `enc`), convert the buffer length to `u32`
(`try_into().expect(..)` — `none` models the panic when it does not fit),
build the header with `BasicHeader::for_msg`, write the header to the sink
with `serialize_into`, then `write_all` the payload buffer. -/
def CborData.write_message (enc : α → List Nat) (msgId msgVer : Nat)
    (sink : ByteWriter) (msg : α) : Option ByteWriter := do
  let cursor : ByteWriter := ⟨[], none⟩
  let cursor ← cursor.writeAll (enc msg)
  let msg_buf := cursor.written
  if msg_buf.length < 4294967296 then
    let header : BasicHeader := ⟨msgId, msgVer, msg_buf.length⟩
    let sink ← header.serialize_into sink
    sink.writeAll msg_buf
  else none

/-! ### Test fixtures

Concrete instances mirroring `src/aversion/tests/group_test.rs`: family `Foo`
has id 123 and versions 1..3, family `Bar` has id 999 and only version 1.
The error type is `Nat`, encoding which hook fired and with what argument. -/

/-- A three-version family (like `FooV1`/`FooV2`/`FooV3`). -/
def fooFamily : Family Nat := ⟨3, fun v x => x * 10 + v⟩

/-- A single-version family (like `BarV1`). -/
def barFamily : Family Nat := ⟨1, fun v x => x + v⟩

/-- A source whose next header is id 123, version 1, and whose payload reads
succeed; the hooks return distinguishable error codes. -/
def testSource : DataSource Nat Nat where
  readHeaderResult := .ok ⟨123, 1⟩
  readMessageResult := fun v => .ok (100 + v)
  unknownMessage := fun i => 1000 + i
  unknownVersion := fun v => 2000 + v
  unexpectedMessage := fun i => 3000 + i

/-- The same source, but the next header carries the unknown id 5. -/
def testSource5 : DataSource Nat Nat :=
  { testSource with readHeaderResult := .ok ⟨5, 1⟩ }

/-! ### Helper lemmas -/

/-- The generated long hop from `lo` to `lo + n` agrees with the stepwise
chain of `n` adjacent conversions starting at `lo`. -/
theorem fromVersionHop_add_eq_chain (step : Nat → α → α) (lo n : Nat) (x : α) :
    fromVersionHop step lo (lo + n) x = specStepwiseChain step lo n x := by
  induction n with
  | zero => simp [fromVersionHop, specStepwiseChain]
  | succ n ih =>
    have h1 : lo + (n + 1) - lo = n + 1 := by omega
    have h2 : lo + n - lo = n := by omega
    unfold fromVersionHop at ih ⊢
    rw [h2] at ih
    rw [h1, show List.range' lo (n + 1) = List.range' lo n ++ [lo + n] by
          simpa using @List.range'_concat 1 lo n,
        List.foldl_append]
    simp [specStepwiseChain, ih]

/-- `upgrade_latest` never reads a header, whatever the version argument. -/
theorem upgradeLatest_no_header_read (F : Family α) (src : DataSource α ε) (ver : Nat) :
    SrcEvent.readHeader ∉ (upgradeLatest F src ver).2 := by
  unfold upgradeLatest
  split
  · cases src.readMessageResult ver <;> simp
  · simp

/-- `TinyHeader` round-trips through its 4-byte codec (context for the
`BasicHeader` results below: the Tiny shape is implemented correctly). -/
theorem tinyHeader_roundtrip (h : TinyHeader)
    (hid : h.msg_id < 65536) (hver : h.msg_ver < 65536) :
    (TinyHeader.serialize h).bind TinyHeader.deserialize = some h := by
  obtain ⟨id, ver⟩ := h
  dsimp only at hid hver
  simp only [TinyHeader.serialize, TinyHeader.serialize_into, ByteWriter.writeAll,
    u16Bytes, TinyHeader.deserialize, TinyHeader.deserialize_from, readU16, readU8]
  norm_num
  constructor <;> omega

/-! ### Claims -/

/-- C1: for a family with versions `1..N` and adjacent steps `v → v+1`, the
derived direct long-hop conversion `FromVersion<V lo>` for `V N`, generated
for each `lo` in `[1, N-2]`, produces the same value as sequentially applying
every adjacent step `lo → lo+1 → ... → N`. -/
theorem longHop_refines_stepwise_chain (step : Nat → α → α) (lo N : Nat) (x : α)
    (_hlo : 1 ≤ lo) (hhi : lo + 2 ≤ N) :
    fromVersionHop step lo N x = specStepwiseChain step lo (N - lo) x := by
  have h : lo + (N - lo) = N := by omega
  have h2 := fromVersionHop_add_eq_chain step lo (N - lo) x
  rwa [h] at h2

/-- Witness for C1 at `lo = 1`, `N = 3`. -/
theorem longHop_refines_stepwise_chain_witness :
    1 ≤ 1 ∧ 1 + 2 ≤ 3 ∧
      fromVersionHop (fun v x => x * 10 + v) 1 3 0 =
        specStepwiseChain (fun v x => x * 10 + v) 1 (3 - 1) 0 :=
  ⟨by decide, by decide,
    longHop_refines_stepwise_chain (fun v x => x * 10 + v) 1 3 0 (by decide) (by decide)⟩

/-- C2 (code bug, `BasicHeader` half): `BasicHeader::serialize` writes the
8-byte header into a `[0u8; 4]` buffer, so `serialize_into` fails with
`WriteZero` on the `u32` field and the `unwrap` panics (modelled as `none`)
for every header value — `decode(encode(h)) == h` can never hold because
`encode` never returns.  (`TinyHeader` does round-trip; see
`tinyHeader_roundtrip`.) -/
theorem basicHeader_serialize_write_zero (h : BasicHeader) :
    BasicHeader.serialize h = none := by
  simp [BasicHeader.serialize, BasicHeader.serialize_into, ByteWriter.writeAll,
    u16Bytes, u32Bytes]

/-- C4 (code bug, `BasicHeader` half): `BasicHeader::deserialize` accepts
only a 4-byte buffer — shorter than the 8-byte fixed size — and instead of
returning a truncation error it `unwrap`s the `UnexpectedEof` from
`read_u32`, i.e. it panics (modelled as `none`) on every input its signature
admits.  (`deserialize_from` on a stream does return the truncation error,
for both shapes.) -/
theorem basicHeader_deserialize_short_buffer (buf : List Nat) (hlen : buf.length = 4) :
    BasicHeader.deserialize buf = none := by
  rcases buf with _ | ⟨b0, _ | ⟨b1, _ | ⟨b2, _ | ⟨b3, _ | ⟨b4, t⟩⟩⟩⟩⟩ <;>
    first
      | rfl
      | simp at hlen

/-- Witness for C4 at the all-zero 4-byte buffer. -/
theorem basicHeader_deserialize_short_buffer_witness :
    ([0, 0, 0, 0] : List Nat).length = 4 ∧ BasicHeader.deserialize [0, 0, 0, 0] = none :=
  ⟨rfl, basicHeader_deserialize_short_buffer [0, 0, 0, 0] rfl⟩

/-- C3: for every declared version outside `[1, latest]` of a known family,
`upgrade_latest` returns exactly the error built by the source's
`unknown_version` hook applied to the offending version (the family identity
is the type parameter the hook is instantiated at), and performs no payload
read before returning: its action trace is empty. -/
theorem upgradeLatest_unknown_version_hook (F : Family α) (src : DataSource α ε)
    (ver : Nat) (h : ¬(1 ≤ ver ∧ ver ≤ F.latest)) :
    upgradeLatest F src ver = (.error (src.unknownVersion ver), []) := by
  simp only [upgradeLatest, if_neg h]

/-- Witness for C3 at `ver = 4` on the three-version family. -/
theorem upgradeLatest_unknown_version_hook_witness :
    ¬(1 ≤ 4 ∧ 4 ≤ fooFamily.latest) ∧
      upgradeLatest fooFamily testSource 4 = (.error (testSource.unknownVersion 4), []) :=
  ⟨by decide, upgradeLatest_unknown_version_hook fooFamily testSource 4 (by decide)⟩

/-- C5: when the header read succeeds but its id matches none of the group's
family ids, the derived `GroupDeserialize::read_message` returns exactly the
error built by the source's `unknown_message` hook applied to the offending
id, and its trace contains no payload read — only the single header read. -/
theorem groupReadMessage_unknown_id_hook (group : List (Nat × Family α))
    (src : DataSource α ε) (h : GHeader) (hh : src.readHeaderResult = .ok h)
    (hmiss : ∀ p ∈ group, p.1 ≠ h.msgId) :
    groupReadMessage group src = (.error (src.unknownMessage h.msgId), [.readHeader]) := by
  have hfind : group.find? (fun p => p.1 == h.msgId) = none := by
    rw [List.find?_eq_none]
    intro p hp
    simpa using hmiss p hp
  simp [groupReadMessage, hh, hfind]

/-- Witness for C5: a group containing ids 123 and 999 receives a header
with id 5. -/
theorem groupReadMessage_unknown_id_hook_witness :
    testSource5.readHeaderResult = .ok ⟨5, 1⟩ ∧
      (∀ p ∈ [(123, fooFamily), (999, barFamily)], p.1 ≠ (GHeader.mk 5 1).msgId) ∧
      groupReadMessage [(123, fooFamily), (999, barFamily)] testSource5 =
        (.error (testSource5.unknownMessage (GHeader.mk 5 1).msgId), [.readHeader]) :=
  ⟨rfl, by intro p hp; fin_cases hp <;> decide,
    groupReadMessage_unknown_id_hook [(123, fooFamily), (999, barFamily)] testSource5
      ⟨5, 1⟩ rfl (by intro p hp; fin_cases hp <;> decide)⟩

/-- C6: `expect_message<T>` reads exactly one header; when the header's id
equals `T::MSG_ID` it delegates to `T`'s upgrade chain at the header's
version and returns its bare (unwrapped) result; when the id differs it
returns exactly the error built by the source's `unexpected_message` hook
applied to the offending id, with no payload read.  In every case the trace
starts with the single header read and contains no further header read. -/
theorem expectMessage_dispatch_spec (msgId : Nat) (F : Family α)
    (src : DataSource α ε) (h : GHeader) (hh : src.readHeaderResult = .ok h) :
    (h.msgId = msgId →
      expectMessage msgId F src =
        ((upgradeLatest F src h.msgVer).1,
          .readHeader :: (upgradeLatest F src h.msgVer).2)) ∧
    (h.msgId ≠ msgId →
      expectMessage msgId F src = (.error (src.unexpectedMessage h.msgId), [.readHeader])) ∧
    (∃ rest, (expectMessage msgId F src).2 = .readHeader :: rest ∧
      SrcEvent.readHeader ∉ rest) := by
  refine ⟨fun heq => ?_, fun hne => ?_, ?_⟩
  · simp [expectMessage, hh, heq]
  · simp [expectMessage, hh, hne]
  · by_cases heq : h.msgId = msgId
    · refine ⟨(upgradeLatest F src h.msgVer).2, ?_, upgradeLatest_no_header_read F src h.msgVer⟩
      simp [expectMessage, hh, heq]
    · exact ⟨[], by simp [expectMessage, hh, heq], by simp⟩

/-- Witness for C6: the source's header is id 123 version 1 and the family's
id is 123 (the matching branch; the mismatch branch is vacuous there). -/
theorem expectMessage_dispatch_spec_witness :
    testSource.readHeaderResult = .ok ⟨123, 1⟩ ∧
      (((GHeader.mk 123 1).msgId = 123 →
        expectMessage 123 fooFamily testSource =
          ((upgradeLatest fooFamily testSource (GHeader.mk 123 1).msgVer).1,
            .readHeader :: (upgradeLatest fooFamily testSource (GHeader.mk 123 1).msgVer).2)) ∧
      ((GHeader.mk 123 1).msgId ≠ 123 →
        expectMessage 123 fooFamily testSource =
          (.error (testSource.unexpectedMessage (GHeader.mk 123 1).msgId), [.readHeader])) ∧
      (∃ rest, (expectMessage 123 fooFamily testSource).2 = .readHeader :: rest ∧
        SrcEvent.readHeader ∉ rest)) :=
  ⟨rfl, expectMessage_dispatch_spec 123 fooFamily testSource ⟨123, 1⟩ rfl⟩

/-- C7: for a family whose latest version is 1, `upgrade_latest` at declared
version 1 reads the payload as version 1 and returns it unchanged — the
conversion applied is the reflexive (identity) `FromVersion` impl, and the
result does not depend on any conversion step (the statement holds for every
`step` function of the family). -/
theorem upgradeLatest_single_version_identity (F : Family α) (src : DataSource α ε)
    (m : α) (hF : F.latest = 1) (hm : src.readMessageResult 1 = .ok m) :
    upgradeLatest F src 1 = (.ok m, [.readPayload 1]) := by
  have hcond : 1 ≤ 1 ∧ 1 ≤ F.latest := by omega
  simp [upgradeLatest, if_pos hcond, hm, fromVersionHop, hF]

/-- Witness for C7 on the single-version family `Bar`. -/
theorem upgradeLatest_single_version_identity_witness :
    barFamily.latest = 1 ∧ testSource.readMessageResult 1 = .ok 101 ∧
      upgradeLatest barFamily testSource 1 = (.ok 101, [.readPayload 1]) :=
  ⟨rfl, rfl, upgradeLatest_single_version_identity barFamily testSource 101 rfl rfl⟩

/-- C10: calling the generated `upgrade_latest` with declared version 0
falls into the same default match arm as versions above `latest`: it returns
the `unknown_version` hook's error for version 0, totally (no panic in the
dispatch logic itself), with no payload read (empty trace). -/
theorem upgradeLatest_version_zero_unknown (F : Family α) (src : DataSource α ε) :
    upgradeLatest F src 0 = (.error (src.unknownVersion 0), []) := by
  simp only [upgradeLatest, if_neg (by omega : ¬(1 ≤ 0 ∧ 0 ≤ F.latest))]

/-- C8: `CborData::read_message` consumes at most `header.msg_len` bytes of
the underlying stream: for every stream and every decoder behaviour
(success or failure alike), every byte beyond the `msg_len` boundary is
still unread afterwards (the bytes from position `msg_len` on form a suffix
of the remaining stream), and the number of consumed bytes is at most
`msg_len`. -/
theorem cborData_read_message_respects_frame (dec : List Nat → Except ε α × Nat)
    (header : BasicHeader) (stream : List Nat) :
    (∃ mid, (CborData.read_message dec header stream).2 =
        mid ++ stream.drop header.msg_len) ∧
    stream.length - (CborData.read_message dec header stream).2.length ≤
      header.msg_len := by
  have hread : (CborData.read_message dec header stream).2 =
      stream.drop (min (dec (stream.take header.msg_len)).2
        (stream.take header.msg_len).length) := rfl
  set j := min (dec (stream.take header.msg_len)).2 (stream.take header.msg_len).length
    with hj
  have hjle : j ≤ header.msg_len := by
    have h1 := List.length_take header.msg_len stream
    have h2 : j ≤ (stream.take header.msg_len).length := min_le_right _ _
    omega
  constructor
  · refine ⟨(stream.drop j).take (header.msg_len - j), ?_⟩
    rw [hread]
    have hsplit := List.take_append_drop (header.msg_len - j) (stream.drop j)
    have hdd : (stream.drop j).drop (header.msg_len - j) = stream.drop header.msg_len := by
      rw [List.drop_drop]
      congr 1
      omega
    rw [← hdd, hsplit]
  · rw [hread]
    have := List.length_drop j stream
    omega

/-- C9: `CborData::write_message` serializes the payload first, sets the
header's `msg_len` to the exact byte length of the serialized payload, and
emits to the sink exactly the 8-byte big-endian header followed immediately
by the payload bytes (provided the payload length fits in a `u32`; the
`try_into().expect` otherwise diverges). -/
theorem cborData_write_message_header_then_payload (enc : α → List Nat)
    (msgId msgVer : Nat) (buf : List Nat) (msg : α)
    (hlen : (enc msg).length < 4294967296) :
    CborData.write_message enc msgId msgVer ⟨buf, none⟩ msg =
        some ⟨buf ++ (u16Bytes msgId ++ u16Bytes msgVer ++ u32Bytes (enc msg).length)
          ++ enc msg, none⟩ ∧
      (u16Bytes msgId ++ u16Bytes msgVer ++ u32Bytes (enc msg).length).length = 8 := by
  constructor
  · simp [CborData.write_message, ByteWriter.writeAll, BasicHeader.serialize_into, hlen]
  · simp [u16Bytes, u32Bytes]

/-- Witness for C9 with a one-byte payload codec. -/
theorem cborData_write_message_header_then_payload_witness :
    ((fun (n : Nat) => [n]) 7).length < 4294967296 ∧
      (CborData.write_message (fun (n : Nat) => [n]) 3 2 ⟨[], none⟩ 7 =
          some ⟨[] ++ (u16Bytes 3 ++ u16Bytes 2 ++
            u32Bytes ((fun (n : Nat) => [n]) 7).length) ++ (fun (n : Nat) => [n]) 7, none⟩ ∧
        (u16Bytes 3 ++ u16Bytes 2 ++ u32Bytes ((fun (n : Nat) => [n]) 7).length).length = 8) :=
  ⟨by decide,
    cborData_write_message_header_then_payload (fun n => [n]) 3 2 [] 7 (by decide)⟩

end Aversion
